import Mathlib

/-!
Verification of the vx-cdc-acm USB CDC-ACM virtual serial port firmware.

The development shallowly embeds the two source files of interest:

* `src/usb-cdc-acm.c` — the static USB descriptor set (device, configuration,
  interface, endpoint and CDC functional descriptors), the class-specific
  control-request callback and the set-configuration callback.
* `src/vx-sf-arch.c` — the byte-stream transport (`sfgetc`, `sfputc`,
  `sfsync`) layered over bulk-endpoint packet exchange.

Machine integers are modelled as `Nat`/`Int` with explicit reduction
modulo 256 where the C code narrows to `uint8_t`.  The underlying
libopencm3 driver is modelled through its documented packet interface:
`usbd_ep_read_packet` returns the next pending packet (at most the buffer
size, zero bytes when nothing is pending) and `usbd_ep_write_packet`
returns the number of bytes accepted — zero both on rejection and on a
successfully sent zero-length packet.
-/

/- ### Constants (from `definitions.h`, `usb-cdc-acm.c` and the libopencm3 headers) -/

def USB_CDCACM_PACKET_SIZE : Nat := 64
def USB_CDCACM_DATA_IN_ENDPOINT_ADDRESS : Nat := 0x81
def USB_CDCACM_DATA_OUT_ENDPOINT_ADDRESS : Nat := 0x1
def USB_CDCACM_COMMUNICATION_IN_ENDPOINT_ADDRESS : Nat := 0x82
def USB_CONTROL_ENDPOINT_SIZE : Nat := 32
def USB_CDCACM_POLLING_INTERVAL_MS : Nat := 1
def USB_CDCACM_CONTROL_INTERFACE_NUMBER : Nat := 0
def USB_CDCACM_DATA_INTERFACE_NUMBER : Nat := 1

/-- libopencm3 `usbstd.h` / `cdc.h` constant values. -/
def USB_DT_DEVICE : Nat := 1
def USB_DT_CONFIGURATION : Nat := 2
def USB_DT_INTERFACE : Nat := 4
def USB_DT_ENDPOINT : Nat := 5
def USB_DT_DEVICE_SIZE : Nat := 18
def USB_DT_CONFIGURATION_SIZE : Nat := 9
def USB_DT_INTERFACE_SIZE : Nat := 9
def USB_DT_ENDPOINT_SIZE : Nat := 7
def USB_CLASS_VENDOR : Nat := 0xFF
def USB_CLASS_CDC : Nat := 2
def USB_CLASS_DATA : Nat := 0x0A
def USB_CDC_SUBCLASS_ACM : Nat := 2
def USB_ENDPOINT_ATTR_BULK : Nat := 2
def USB_ENDPOINT_ATTR_INTERRUPT : Nat := 3
def USB_CONFIG_ATTR_DEFAULT : Nat := 0x80
def CS_INTERFACE : Nat := 0x24
def USB_CDC_TYPE_HEADER : Nat := 0
def USB_CDC_TYPE_CALL_MANAGEMENT : Nat := 1
def USB_CDC_TYPE_ACM : Nat := 2
def USB_CDC_TYPE_UNION : Nat := 6
def USB_REQ_TYPE_STANDARD : Nat := 0x00
def USB_REQ_TYPE_INTERFACE : Nat := 0x01
def USB_REQ_TYPE_TYPE : Nat := 0x60
def USB_REQ_TYPE_RECIPIENT : Nat := 0x1F

/-- `sizeof` the packed CDC functional descriptor structs (libopencm3 `cdc.h`). -/
def SIZEOF_USB_CDC_HEADER_DESCRIPTOR : Nat := 5
def SIZEOF_USB_CDC_ACM_DESCRIPTOR : Nat := 4
def SIZEOF_USB_CDC_UNION_DESCRIPTOR : Nat := 5
def SIZEOF_USB_CDC_CALL_MANAGEMENT_DESCRIPTOR : Nat := 5

/- ### Descriptor model (`usb-cdc-acm.c`) -/

structure UsbDeviceDescriptor where
  bLength : Nat
  bDescriptorType : Nat
  bcdUSB : Nat
  bDeviceClass : Nat
  bDeviceSubClass : Nat
  bDeviceProtocol : Nat
  bMaxPacketSize0 : Nat
  idVendor : Nat
  idProduct : Nat
  bcdDevice : Nat
  iManufacturer : Nat
  iProduct : Nat
  iSerialNumber : Nat
  bNumConfigurations : Nat
  deriving DecidableEq

structure UsbEndpointDescriptor where
  bLength : Nat
  bDescriptorType : Nat
  bEndpointAddress : Nat
  bmAttributes : Nat
  wMaxPacketSize : Nat
  bInterval : Nat
  deriving DecidableEq

structure UsbCdcHeaderDescriptor where
  bFunctionLength : Nat
  bDescriptorType : Nat
  bDescriptorSubtype : Nat
  bcdCDC : Nat
  deriving DecidableEq

structure UsbCdcAcmDescriptor where
  bFunctionLength : Nat
  bDescriptorType : Nat
  bDescriptorSubtype : Nat
  bmCapabilities : Nat
  deriving DecidableEq

structure UsbCdcUnionDescriptor where
  bFunctionLength : Nat
  bDescriptorType : Nat
  bDescriptorSubtype : Nat
  bControlInterface : Nat
  bSubordinateInterface0 : Nat
  deriving DecidableEq

structure UsbCdcCallManagementDescriptor where
  bFunctionLength : Nat
  bDescriptorType : Nat
  bDescriptorSubtype : Nat
  bmCapabilities : Nat
  bDataInterface : Nat
  deriving DecidableEq

/-- The packed aggregate of the four CDC functional descriptors that the
Communications interface carries as class-specific trailing data. -/
structure UsbCdcacmFunctionalDescriptors where
  h : UsbCdcHeaderDescriptor
  acm : UsbCdcAcmDescriptor
  u : UsbCdcUnionDescriptor
  c : UsbCdcCallManagementDescriptor
  deriving DecidableEq

structure UsbInterfaceDescriptor where
  bLength : Nat
  bDescriptorType : Nat
  bInterfaceNumber : Nat
  bAlternateSetting : Nat
  bNumEndpoints : Nat
  bInterfaceClass : Nat
  bInterfaceSubClass : Nat
  bInterfaceProtocol : Nat
  iInterface : Nat
  endpoint : List UsbEndpointDescriptor
  extra : Option UsbCdcacmFunctionalDescriptors
  deriving DecidableEq

structure UsbConfigDescriptor where
  bLength : Nat
  bDescriptorType : Nat
  bNumInterfaces : Nat
  bConfigurationValue : Nat
  iConfiguration : Nat
  bmAttributes : Nat
  bMaxPower : Nat
  interfaces : List UsbInterfaceDescriptor
  deriving DecidableEq

def usb_device_descriptor : UsbDeviceDescriptor :=
  { bLength := USB_DT_DEVICE_SIZE
    bDescriptorType := USB_DT_DEVICE
    bcdUSB := 0x200
    bDeviceClass := USB_CLASS_VENDOR
    bDeviceSubClass := 0
    bDeviceProtocol := 0
    bMaxPacketSize0 := USB_CONTROL_ENDPOINT_SIZE
    idVendor := 0x1ad4
    idProduct := 0xb000
    bcdDevice := 0x0100
    iManufacturer := 0
    iProduct := 0
    iSerialNumber := 0
    bNumConfigurations := 1 }

def usb_cdcacm_communication_endpoint : List UsbEndpointDescriptor :=
  [ { bLength := USB_DT_ENDPOINT_SIZE
      bDescriptorType := USB_DT_ENDPOINT
      bEndpointAddress := USB_CDCACM_COMMUNICATION_IN_ENDPOINT_ADDRESS
      bmAttributes := USB_ENDPOINT_ATTR_INTERRUPT
      wMaxPacketSize := USB_CDCACM_PACKET_SIZE
      bInterval := USB_CDCACM_POLLING_INTERVAL_MS } ]

def usb_cdcacm_data_endpoints : List UsbEndpointDescriptor :=
  [ { bLength := USB_DT_ENDPOINT_SIZE
      bDescriptorType := USB_DT_ENDPOINT
      bEndpointAddress := USB_CDCACM_DATA_IN_ENDPOINT_ADDRESS
      bmAttributes := USB_ENDPOINT_ATTR_BULK
      wMaxPacketSize := USB_CDCACM_PACKET_SIZE
      bInterval := USB_CDCACM_POLLING_INTERVAL_MS },
    { bLength := USB_DT_ENDPOINT_SIZE
      bDescriptorType := USB_DT_ENDPOINT
      bEndpointAddress := USB_CDCACM_DATA_OUT_ENDPOINT_ADDRESS
      bmAttributes := USB_ENDPOINT_ATTR_BULK
      wMaxPacketSize := USB_CDCACM_PACKET_SIZE
      bInterval := USB_CDCACM_POLLING_INTERVAL_MS } ]

def usb_cdcacm_functional_descriptors : UsbCdcacmFunctionalDescriptors :=
  { h :=
    { bFunctionLength := SIZEOF_USB_CDC_HEADER_DESCRIPTOR
      bDescriptorType := CS_INTERFACE
      bDescriptorSubtype := USB_CDC_TYPE_HEADER
      bcdCDC := 0x110 }
    acm :=
    { bFunctionLength := SIZEOF_USB_CDC_ACM_DESCRIPTOR
      bDescriptorType := CS_INTERFACE
      bDescriptorSubtype := USB_CDC_TYPE_ACM
      bmCapabilities := 0 }
    u :=
    { bFunctionLength := SIZEOF_USB_CDC_UNION_DESCRIPTOR
      bDescriptorType := CS_INTERFACE
      bDescriptorSubtype := USB_CDC_TYPE_UNION
      bControlInterface := USB_CDCACM_CONTROL_INTERFACE_NUMBER
      bSubordinateInterface0 := USB_CDCACM_DATA_INTERFACE_NUMBER }
    c :=
    { bFunctionLength := SIZEOF_USB_CDC_CALL_MANAGEMENT_DESCRIPTOR
      bDescriptorType := CS_INTERFACE
      bDescriptorSubtype := USB_CDC_TYPE_CALL_MANAGEMENT
      bmCapabilities := 0
      bDataInterface := USB_CDCACM_DATA_INTERFACE_NUMBER } }

def cdcacm_communications_interface : UsbInterfaceDescriptor :=
  { bLength := USB_DT_INTERFACE_SIZE
    bDescriptorType := USB_DT_INTERFACE
    bInterfaceNumber := USB_CDCACM_CONTROL_INTERFACE_NUMBER
    bAlternateSetting := 0
    bNumEndpoints := 1
    bInterfaceClass := USB_CLASS_CDC
    bInterfaceSubClass := USB_CDC_SUBCLASS_ACM
    bInterfaceProtocol := 0
    iInterface := 0
    endpoint := usb_cdcacm_communication_endpoint
    extra := some usb_cdcacm_functional_descriptors }

def cdcacm_data_interface : UsbInterfaceDescriptor :=
  { bLength := USB_DT_INTERFACE_SIZE
    bDescriptorType := USB_DT_INTERFACE
    bInterfaceNumber := USB_CDCACM_DATA_INTERFACE_NUMBER
    bAlternateSetting := 0
    bNumEndpoints := 2
    bInterfaceClass := USB_CLASS_DATA
    bInterfaceSubClass := 0
    bInterfaceProtocol := 0
    iInterface := 0
    endpoint := usb_cdcacm_data_endpoints
    extra := none }

def usb_config_descriptor : UsbConfigDescriptor :=
  { bLength := USB_DT_CONFIGURATION_SIZE
    bDescriptorType := USB_DT_CONFIGURATION
    bNumInterfaces := 2
    bConfigurationValue := 1
    iConfiguration := 0
    bmAttributes := USB_CONFIG_ATTR_DEFAULT
    bMaxPower := 50
    interfaces := [cdcacm_communications_interface, cdcacm_data_interface] }

/- ### Control-request callback (`usbd_cdcacm_control_callback`) -/

/-- libopencm3 `enum usbd_request_return_codes`. -/
inductive UsbdRequestReturnCode where
  | notsupp
  | handled
  | nextCallback
  deriving DecidableEq

structure UsbSetupData where
  bmRequestType : Nat
  bRequest : Nat
  wValue : Nat
  wIndex : Nat
  wLength : Nat
  deriving DecidableEq

/-- `usbd_cdcacm_control_callback`: the request-filtering body is compiled
out (`#if 0` in the source), so the function returns `USBD_REQ_HANDLED`
for every request it receives. -/
def usbd_cdcacm_control_callback (req : UsbSetupData) : UsbdRequestReturnCode :=
  UsbdRequestReturnCode.handled

/- ### Set-configuration callback (`usbd_cdcacm_set_config_callback`) -/

/-- A driver interaction performed by the set-configuration callback, in
program order: an `usbd_ep_setup` call, an `usbd_register_control_callback`
call, or the write of `is_usb_device_configured`. -/
inductive ConfigAction where
  | epSetup (addr attr maxSize : Nat)
  | registerControlCallback (reqType reqTypeMask : Nat)
  | setConfigured (value : Bool)
  deriving DecidableEq

/-- The sequence of driver interactions performed by
`usbd_cdcacm_set_config_callback`, in the order the source performs them. -/
def usbd_cdcacm_set_config_callback : List ConfigAction :=
  [ ConfigAction.epSetup USB_CDCACM_COMMUNICATION_IN_ENDPOINT_ADDRESS
      USB_ENDPOINT_ATTR_INTERRUPT USB_CDCACM_PACKET_SIZE,
    ConfigAction.epSetup USB_CDCACM_DATA_IN_ENDPOINT_ADDRESS
      USB_ENDPOINT_ATTR_BULK USB_CDCACM_PACKET_SIZE,
    ConfigAction.epSetup USB_CDCACM_DATA_OUT_ENDPOINT_ADDRESS
      USB_ENDPOINT_ATTR_BULK USB_CDCACM_PACKET_SIZE,
    ConfigAction.registerControlCallback
      (USB_REQ_TYPE_STANDARD ||| USB_REQ_TYPE_INTERFACE)
      (USB_REQ_TYPE_TYPE ||| USB_REQ_TYPE_RECIPIENT),
    ConfigAction.setConfigured true ]

def isSetConfigured : ConfigAction → Bool
  | ConfigAction.setConfigured _ => true
  | _ => false

/-- Every `epSetup` action uses the declared packet size 64 and the
transfer type matching its endpoint: interrupt for the notification
endpoint 0x82, bulk for the data endpoints 0x81 and 0x01. -/
def epSetupWellTyped : ConfigAction → Bool
  | ConfigAction.epSetup addr attr maxSize =>
      maxSize == USB_CDCACM_PACKET_SIZE &&
      ((addr == USB_CDCACM_COMMUNICATION_IN_ENDPOINT_ADDRESS &&
          attr == USB_ENDPOINT_ATTR_INTERRUPT) ||
        ((addr == USB_CDCACM_DATA_IN_ENDPOINT_ADDRESS ||
            addr == USB_CDCACM_DATA_OUT_ENDPOINT_ADDRESS) &&
          attr == USB_ENDPOINT_ATTR_BULK))
  | _ => true

/- ### Theorems for the descriptor and callback claims -/

/-- C1 (counterexample): the claim says the class-specific control-request
handler signals "not handled" (`USBD_REQ_NEXT_CALLBACK`) for requests it
does not recognize.  The handler's filtering body is compiled out, so at
the concrete unimplemented request GET_DESCRIPTOR(report) —
`bmRequestType = 0x81`, `bRequest = 6`, `wValue = 0x2200` — it returns
`USBD_REQ_HANDLED`, not `USBD_REQ_NEXT_CALLBACK`. -/
theorem control_callback_handles_unrecognized_request :
    usbd_cdcacm_control_callback
        { bmRequestType := 0x81, bRequest := 6, wValue := 0x2200,
          wIndex := 0, wLength := 0 } = UsbdRequestReturnCode.handled ∧
    UsbdRequestReturnCode.handled ≠ UsbdRequestReturnCode.nextCallback := by
  exact ⟨rfl, by decide⟩

/-- C1 (amended): the class-specific control-request handler acknowledges
every control request as handled — it returns `USBD_REQ_HANDLED` for all
requests and never defers to the next callback in the fallback chain. -/
theorem control_callback_always_handled (req : UsbSetupData) :
    usbd_cdcacm_control_callback req = UsbdRequestReturnCode.handled ∧
    usbd_cdcacm_control_callback req ≠ UsbdRequestReturnCode.nextCallback := by
  exact ⟨rfl, by simp [usbd_cdcacm_control_callback]⟩

/-- C5: the configuration descriptor declares exactly 2 interfaces (and
aggregates exactly two interface descriptors); the Union functional
descriptor's control-interface field equals 0 and its
subordinate-interface field equals the Data interface's number (1); the
Call-Management functional descriptor's data-interface field equals the
Data interface's number (1). -/
theorem descriptor_integrity :
    usb_config_descriptor.bNumInterfaces = 2 ∧
    usb_config_descriptor.interfaces.length = 2 ∧
    usb_cdcacm_functional_descriptors.u.bControlInterface = 0 ∧
    usb_cdcacm_functional_descriptors.u.bSubordinateInterface0 =
      cdcacm_data_interface.bInterfaceNumber ∧
    usb_cdcacm_functional_descriptors.c.bDataInterface =
      cdcacm_data_interface.bInterfaceNumber ∧
    cdcacm_data_interface.bInterfaceNumber = 1 := by
  refine ⟨rfl, rfl, rfl, rfl, rfl, rfl⟩

/-- C8: the set-configuration callback sets up the notification endpoint
as interrupt type and both data endpoints as bulk type, all with packet
size 64; the write of the configured flag is its final action, and no
other action sets the flag — every endpoint setup and the control-handler
registration happen before the flag becomes true. -/
theorem set_config_callback_trace_spec :
    usbd_cdcacm_set_config_callback.all epSetupWellTyped = true ∧
    ConfigAction.epSetup USB_CDCACM_COMMUNICATION_IN_ENDPOINT_ADDRESS
        USB_ENDPOINT_ATTR_INTERRUPT 64 ∈ usbd_cdcacm_set_config_callback ∧
    ConfigAction.epSetup USB_CDCACM_DATA_IN_ENDPOINT_ADDRESS
        USB_ENDPOINT_ATTR_BULK 64 ∈ usbd_cdcacm_set_config_callback ∧
    ConfigAction.epSetup USB_CDCACM_DATA_OUT_ENDPOINT_ADDRESS
        USB_ENDPOINT_ATTR_BULK 64 ∈ usbd_cdcacm_set_config_callback ∧
    ConfigAction.registerControlCallback
        (USB_REQ_TYPE_STANDARD ||| USB_REQ_TYPE_INTERFACE)
        (USB_REQ_TYPE_TYPE ||| USB_REQ_TYPE_RECIPIENT)
      ∈ usbd_cdcacm_set_config_callback ∧
    usbd_cdcacm_set_config_callback.getLast? =
      some (ConfigAction.setConfigured true) ∧
    usbd_cdcacm_set_config_callback.dropLast.all
      (fun a => !isSetConfigured a) = true := by
  refine ⟨by decide, by decide, by decide, by decide, by decide, by decide, by decide⟩

/- ### Stream transport model (`vx-sf-arch.c`) -/

/-- The narrowing `uint8_t` assignment in `outbuf[outbuf_idx ++] = c`:
an `int` converted to `uint8_t` is reduced modulo 256. -/
def byteOfInt (c : Int) : Nat := (c % 256).toNat

/-- The capacity of `outbuf`: `USB_CDCACM_PACKET_SIZE - 1` bytes, one
below the endpoint size, so every flushed packet is a short packet. -/
def OUTBUF_CAPACITY : Nat := USB_CDCACM_PACKET_SIZE - 1

/-- The process-wide state of the stream transport: the
`is_usb_device_configured` flag (owned by `usb-cdc-acm.c`), the input
buffer `inbuf` together with its read cursor `idx` (the valid length
`inbuf_len` is `inbuf.length`), and the output buffer `outbuf` holding
the `outbuf_idx` bytes buffered so far. -/
structure CdcState where
  configured : Bool
  inbuf : List Nat
  idx : Nat
  outbuf : List Nat
  deriving DecidableEq

/-- Power-on state: flag false, both buffers empty. -/
def initState : CdcState :=
  { configured := false, inbuf := [], idx := 0, outbuf := [] }

/-- The blocking receive loop of `sfgetc`: each iteration polls the
device and calls `usbd_ep_read_packet`, which hands over the next
pending host packet truncated to the 64-byte buffer (or zero bytes when
nothing is pending).  The loop exits at the first non-empty packet.
Given the finite script `pending` of successive packets the driver will
deliver, the result is the packet that stops the loop together with the
undelivered remainder, and the number of `usbd_ep_read_packet` calls
performed; `none` means the script is exhausted and the loop is still
spinning (the call blocks). -/
def sfgetcAux : List (List Nat) → Nat → Option (List Nat × List (List Nat)) × Nat
  | [], n => (none, n)
  | p :: rest, n =>
    let pkt := p.take USB_CDCACM_PACKET_SIZE
    if pkt = [] then sfgetcAux rest (n + 1)
    else (some (pkt, rest), n + 1)

/-- One `sfgetc` call.  If the input buffer is exhausted
(`idx = inbuf_len`) the blocking receive loop runs; otherwise no endpoint
I/O happens.  Returns the byte, the new state and the undelivered
packets (or `none` when the call blocks on the finite script), paired
with the number of `usbd_ep_read_packet` invocations performed. -/
def sfgetcStep (s : CdcState) (pending : List (List Nat)) :
    Option (Nat × CdcState × List (List Nat)) × Nat :=
  if s.idx = s.inbuf.length then
    match sfgetcAux pending 0 with
    | (none, n) => (none, n)
    | (some (pkt, rest), n) =>
        (some (pkt.headI, { s with inbuf := pkt, idx := 1 }, rest), n)
  else
    (some (s.inbuf.getD s.idx 0, { s with idx := s.idx + 1 }, pending), 0)

/-- One `sfputc c` call: append the truncated byte at the write cursor;
when the buffer reaches its capacity of 63 bytes, flush it (the returned
packet is what `sfsync` hands to `usbd_ep_write_packet` on the bulk-IN
endpoint, retried until accepted) and reset the cursor. -/
def sfputcStep (c : Int) (s : CdcState) : CdcState × Option (List Nat) :=
  let buf2 := s.outbuf ++ [byteOfInt c]
  if buf2.length = OUTBUF_CAPACITY then
    ({ s with outbuf := [] }, some buf2)
  else
    ({ s with outbuf := buf2 }, none)

/-- One `sfsync` call under the assumption that the driver eventually
accepts the packet: the buffered bytes (possibly zero of them) are
handed to the bulk-IN endpoint and the write cursor is reset. -/
def sfsyncStep (s : CdcState) : CdcState × List Nat :=
  ({ s with outbuf := [] }, s.outbuf)

/-- libopencm3 `usbd_ep_write_packet` result model: the number of bytes
accepted — `len` when the transfer is accepted, `0` when it is rejected
(ambiguous with an accepted zero-length transfer). -/
def usbd_ep_write_packet (accepted : Bool) (len : Nat) : Nat :=
  if accepted then len else 0

/-- The retry loop of `sfsync`, `while (!usbd_ep_write_packet(...))
usbd_poll(...)`, run against the oracle `accepts i` telling whether the
driver accepts the `i`-th write attempt.  `fuel` bounds how many
attempts we observe; `some i` means the loop exited at attempt `i`
(after which `outbuf_idx` is reset), `none` means the loop was still
spinning after `fuel` attempts. -/
def sfsyncLoop (accepts : Nat → Bool) (len : Nat) : Nat → Nat → Option Nat
  | 0, _ => none
  | fuel + 1, i =>
    if usbd_ep_write_packet (accepts i) len = 0 then
      sfsyncLoop accepts len fuel (i + 1)
    else
      some i

/-- `sfsync` with `outbufIdx` buffered bytes, observed for `fuel` write
attempts: `some 0` is the reset write cursor after the loop exits. -/
def sfsyncM (accepts : Nat → Bool) (outbufIdx : Nat) (fuel : Nat) : Option Nat :=
  (sfsyncLoop accepts outbufIdx fuel 0).map (fun _ => 0)

/- ### Theorems: sfsync with zero buffered bytes (C2) -/

/-- C2 (counterexample): the claim says that when `sfsync` runs with zero
buffered bytes and the driver accepts an attempt, the call returns upon
that acceptance.  With zero buffered bytes and a driver that accepts
every single attempt, the loop has still not exited after 100 attempts:
`usbd_ep_write_packet` reports 0 bytes for an accepted zero-length
transfer, which the loop cannot distinguish from rejection. -/
theorem sfsync_zero_len_no_return_after_accepts :
    sfsyncM (fun _ => true) 0 100 = none := by
  decide

/-- C2 (amended): `sfsync` called with zero buffered bytes attempts
zero-length transfers on the bulk-IN endpoint, but never returns — for
every acceptance oracle and every number of observed attempts the loop
is still spinning, because an accepted zero-length transfer reports the
same 0-byte result as a rejection; consequently the write-cursor reset
after the loop is never reached. -/
theorem sfsync_zero_len_never_returns (accepts : Nat → Bool) (fuel i : Nat) :
    sfsyncLoop accepts 0 fuel i = none ∧ sfsyncM accepts 0 fuel = none := by
  constructor
  · induction fuel generalizing i with
    | zero => rfl
    | succ n ih => simp [sfsyncLoop, usbd_ep_write_packet, ih]
  · have h : ∀ j, sfsyncLoop accepts 0 fuel j = none := by
      intro j
      induction fuel generalizing j with
      | zero => rfl
      | succ n ih => simp [sfsyncLoop, usbd_ep_write_packet, ih]
    simp [sfsyncM, h]

/- ### Theorems: the configured flag does not gate the stream operations (C3) -/

/-- C3 (counterexample): the claim says that while the configured flag is
false, neither `sfgetc` nor `sfputc` performs endpoint I/O.  From the
power-on state (flag false, input buffer exhausted), an `sfgetc` call
performs an `usbd_ep_read_packet` endpoint read (count 1) and consumes
the pending packet; and with the flag false and 62 bytes buffered, an
`sfputc` call flushes, handing a packet to the bulk-IN endpoint. -/
theorem sfgetc_reads_while_unconfigured :
    initState.configured = false ∧
    (sfgetcStep initState [[0x41]]).2 = 1 ∧
    (sfgetcStep initState [[0x41]]).1 =
      some (0x41, { configured := false, inbuf := [0x41], idx := 1, outbuf := [] }, []) ∧
    ((sfputcStep 0x42 { initState with outbuf := List.replicate 62 0 }).2).isSome = true := by
  refine ⟨rfl, rfl, by decide, by decide⟩

/-- C3 (amended): the stream operations do not consult the configured
flag at all (it is a `static` of the other translation unit): the byte
returned, the endpoint reads performed, the packets consumed and the
packets flushed by `sfgetc`, `sfputc` and `sfsync` are identical whether
the flag is true or false, and in particular endpoint I/O is attempted
even while the flag is false; gating on the flag is the caller's
responsibility. -/
theorem stream_ops_ignore_configured_flag (s : CdcState) (b : Bool)
    (pending : List (List Nat)) (c : Int) :
    (sfgetcStep { s with configured := b } pending).2 = (sfgetcStep s pending).2 ∧
    ((sfgetcStep { s with configured := b } pending).1.map
        (fun r => (r.1, r.2.2))) =
      ((sfgetcStep s pending).1.map (fun r => (r.1, r.2.2))) ∧
    (sfputcStep c { s with configured := b }).2 = (sfputcStep c s).2 ∧
    (sfsyncStep { s with configured := b }).2 = (sfsyncStep s).2 := by
    have hidx : ({ s with configured := b } : CdcState).idx = s.idx := rfl
    refine ⟨?_, ?_, ?_, ?_⟩
    · simp only [sfgetcStep]
      by_cases h2 : s.idx = s.inbuf.length
      · cases h : sfgetcAux pending 0 with
        | mk fst n =>
          cases fst with
          | none => simp [h2]
          | some pr => cases pr with
            | mk pkt rest => simp [h2]
      · simp [h2]
    · simp only [sfgetcStep]
      by_cases h2 : s.idx = s.inbuf.length
      · cases h : sfgetcAux pending 0 with
        | mk fst n =>
          cases fst with
          | none => simp [h2]
          | some pr => cases pr with
            | mk pkt rest => simp [h2]
      · simp [h2]
    · simp only [sfputcStep]
      by_cases h2 : s.outbuf.length + 1 = OUTBUF_CAPACITY <;> simp [h2]
    · simp [sfsyncStep]

/- ### Theorems: uint8_t truncation in sfputc (C10) -/

/-- C10: for every `int` argument `c`, the byte `sfputc` appends to the
output buffer (and that a later flush transmits) is `c` reduced modulo
256: the appended byte is below 256 and congruent to `c` modulo 256 —
only the low 8 bits of the argument are preserved. -/
theorem sfputc_truncates_mod_256 (c : Int) (s : CdcState) :
    (match sfputcStep c s with
      | (s2, none) => s2.outbuf.getLast?
      | (_, some p) => p.getLast?) = some (byteOfInt c) ∧
    byteOfInt c < 256 ∧
    (byteOfInt c : Int) = c % 256 := by
  have hnn : (0 : Int) ≤ c % 256 := Int.emod_nonneg c (by norm_num)
  have hlt : c % 256 < 256 := Int.emod_lt_of_pos c (by norm_num)
  refine ⟨?_, ?_, ?_⟩
  · simp only [sfputcStep]
    by_cases h : s.outbuf.length + 1 = OUTBUF_CAPACITY <;>
      simp [h, List.getLast?_concat]
  · simp only [byteOfInt]
    omega
  · simp [byteOfInt, Int.toNat_of_nonneg hnn]

/- ### Repeated writes: framing (C4) -/

/-- Run a sequence of `sfputc` calls, collecting the packets the calls
hand to the bulk-IN endpoint by triggering automatic flushes, in the
order they are flushed. -/
def sfputcRun : List Int → CdcState → CdcState × List (List Nat)
  | [], s => (s, [])
  | c :: cs, s =>
    match sfputcStep c s with
    | (s2, none) => sfputcRun cs s2
    | (s2, some p) =>
      let r := sfputcRun cs s2
      (r.1, p :: r.2)

lemma OUTBUF_CAPACITY_eq : OUTBUF_CAPACITY = 63 := rfl

/-- Behaviour of a run of `sfputc` calls starting from a write cursor
below the buffer capacity: the final cursor and the flush count follow
Euclidean division of the total byte count by 63, every flushed packet
has exactly 63 bytes, the flushed packets followed by the residual
buffer carry exactly the input bytes in order, and the other state
components are untouched. -/
lemma sfputcRun_spec (cs : List Int) (s : CdcState)
    (h : s.outbuf.length < OUTBUF_CAPACITY) :
    (sfputcRun cs s).1.outbuf.length = (s.outbuf.length + cs.length) % 63 ∧
    (sfputcRun cs s).2.length = (s.outbuf.length + cs.length) / 63 ∧
    (∀ p ∈ (sfputcRun cs s).2, p.length = 63) ∧
    (sfputcRun cs s).2.flatten ++ (sfputcRun cs s).1.outbuf =
      s.outbuf ++ cs.map byteOfInt ∧
    (sfputcRun cs s).1.inbuf = s.inbuf ∧
    (sfputcRun cs s).1.idx = s.idx ∧
    (sfputcRun cs s).1.configured = s.configured := by
  induction cs generalizing s with
  | nil =>
    have hlt : s.outbuf.length % 63 = s.outbuf.length :=
      Nat.mod_eq_of_lt (by simpa [OUTBUF_CAPACITY_eq] using h)
    have hdiv : s.outbuf.length / 63 = 0 :=
      Nat.div_eq_of_lt (by simpa [OUTBUF_CAPACITY_eq] using h)
    simp [sfputcRun, hlt, hdiv]
  | cons c cs ih =>
    rw [OUTBUF_CAPACITY_eq] at h
    by_cases hc : s.outbuf.length + 1 = OUTBUF_CAPACITY
    · have hrun : sfputcRun (c :: cs) s =
          ((sfputcRun cs { s with outbuf := [] }).1,
            (s.outbuf ++ [byteOfInt c]) :: (sfputcRun cs { s with outbuf := [] }).2) := by
        simp [sfputcRun, sfputcStep, hc]
      have h0 : ({ s with outbuf := [] } : CdcState).outbuf.length < OUTBUF_CAPACITY := by
        simp [OUTBUF_CAPACITY_eq]
      obtain ⟨i1, i2, i3, i4, i5, i6, i7⟩ := ih { s with outbuf := [] } h0
      rw [OUTBUF_CAPACITY_eq] at hc
      have harith : s.outbuf.length + (cs.length + 1) = 63 + cs.length := by omega
      refine ⟨?_, ?_, ?_, ?_, ?_, ?_, ?_⟩
      · rw [hrun]
        simp only at i1
        simp only [List.length_cons, harith, i1]
        simp [Nat.add_mod_left]
      · rw [hrun]
        have hzero : ({ s with outbuf := [] } : CdcState).outbuf.length = 0 := rfl
        rw [hzero, Nat.zero_add] at i2
        simp only [List.length_cons, harith, i2]
        rw [show (63 : Nat) + cs.length = cs.length + 63 from Nat.add_comm _ _,
          Nat.add_div_right _ (show 0 < 63 by norm_num)]
      · rw [hrun]
        intro p hp
        rcases List.mem_cons.mp hp with hp | hp
        · subst hp; simp; omega
        · exact i3 p hp
      · rw [hrun]
        simp only [List.flatten_cons, List.append_assoc]
        rw [i4]
        simp
      · rw [hrun]; simpa using i5
      · rw [hrun]; simpa using i6
      · rw [hrun]; simpa using i7
    · have hrun : sfputcRun (c :: cs) s =
          sfputcRun cs { s with outbuf := s.outbuf ++ [byteOfInt c] } := by
        simp [sfputcRun, sfputcStep, hc]
      have h1 : ({ s with outbuf := s.outbuf ++ [byteOfInt c] } : CdcState).outbuf.length
          < OUTBUF_CAPACITY := by
        rw [OUTBUF_CAPACITY_eq] at hc ⊢
        simp only [List.length_append, List.length_singleton]
        omega
      obtain ⟨i1, i2, i3, i4, i5, i6, i7⟩ :=
        ih { s with outbuf := s.outbuf ++ [byteOfInt c] } h1
      simp only [List.length_append, List.length_singleton] at i1 i2
      refine ⟨?_, ?_, ?_, ?_, ?_, ?_, ?_⟩
      · rw [hrun]
        rw [i1]
        simp only [List.length_cons]
        congr 1
        omega
      · rw [hrun]
        rw [i2]
        simp only [List.length_cons]
        congr 1
        omega
      · rw [hrun]; exact i3
      · rw [hrun]
        rw [i4]
        simp
      · rw [hrun]; exact i5
      · rw [hrun]; exact i6
      · rw [hrun]; exact i7

/-- C4: over every sequence of `sfputc` calls from the initial state, an
automatic flush is triggered exactly when the accumulated unflushed byte
count reaches `OUTBUF_CAPACITY = 63` (packet size minus one): the number
of flushes after `cs` writes is `cs.length / 63`, the residual unflushed
count is `cs.length % 63`, the next call flushes precisely when it
brings the unflushed count to 63, and every packet handed to the bulk-IN
endpoint by `sfputc` has exactly 63 bytes — strictly less than the
endpoint's max packet size 64. -/
theorem sfputc_flush_framing (cs : List Int) (c : Int) :
    (sfputcRun cs initState).2.length = cs.length / OUTBUF_CAPACITY ∧
    (sfputcRun cs initState).1.outbuf.length = cs.length % OUTBUF_CAPACITY ∧
    ((sfputcStep c (sfputcRun cs initState).1).2.isSome = true ↔
      (sfputcRun cs initState).1.outbuf.length + 1 = OUTBUF_CAPACITY) ∧
    ((sfputcRun cs initState).2.all
      (fun p => p.length == OUTBUF_CAPACITY) = true) ∧
    OUTBUF_CAPACITY < USB_CDCACM_PACKET_SIZE := by
  have hinit : (initState).outbuf.length < OUTBUF_CAPACITY := by
    simp [initState, OUTBUF_CAPACITY_eq]
  obtain ⟨i1, i2, i3, _, _, _, _⟩ := sfputcRun_spec cs initState hinit
  refine ⟨?_, ?_, ?_, ?_, ?_⟩
  · rw [i2]; simp [initState, OUTBUF_CAPACITY_eq]
  · rw [i1]; simp [initState, OUTBUF_CAPACITY_eq]
  · constructor
    · intro hs
      simp only [sfputcStep] at hs
      by_cases hc : ((sfputcRun cs initState).1.outbuf ++ [byteOfInt c]).length
          = OUTBUF_CAPACITY
      · simp only [List.length_append, List.length_singleton] at hc
        exact hc
      · rw [if_neg hc] at hs
        simp at hs
    · intro hc
      simp only [sfputcStep]
      rw [if_pos (by simpa using hc)]
      rfl
  · rw [List.all_eq_true]
    intro p hp
    simpa [OUTBUF_CAPACITY_eq] using i3 p hp
  · rw [OUTBUF_CAPACITY_eq]; norm_num [USB_CDCACM_PACKET_SIZE]

/- ### The stream machine: operations and the buffer invariant (C9) -/

/-- An application-level stream operation: a blocking read (with the
script of packets the driver will deliver during the call), a one-byte
write, or an explicit flush. -/
inductive StreamOp where
  | get (pending : List (List Nat))
  | put (c : Int)
  | sync
  deriving DecidableEq

/-- Execute one stream operation.  A `get` that blocks forever on its
finite script leaves the loop's steady state (`idx = 0`,
`inbuf_len = 0`). -/
def stepOp (s : CdcState) : StreamOp → CdcState
  | StreamOp.get pending =>
    match (sfgetcStep s pending).1 with
    | none => { s with inbuf := [], idx := 0 }
    | some (_, s2, _) => s2
  | StreamOp.put c => (sfputcStep c s).1
  | StreamOp.sync => (sfsyncStep s).1

def runOps (ops : List StreamOp) : CdcState := ops.foldl stepOp initState

/-- The stream-buffer invariant of the specification: read cursor at
most the valid length, valid length at most the 64-byte input capacity,
write cursor at most the 63-byte output capacity. -/
def StreamInv (s : CdcState) : Prop :=
  s.idx ≤ s.inbuf.length ∧ s.inbuf.length ≤ USB_CDCACM_PACKET_SIZE ∧
  s.outbuf.length ≤ OUTBUF_CAPACITY

/-- Strengthened form used for the induction: the write cursor is in
fact strictly below the capacity after every completed operation. -/
def StreamInvS (s : CdcState) : Prop :=
  s.idx ≤ s.inbuf.length ∧ s.inbuf.length ≤ USB_CDCACM_PACKET_SIZE ∧
  s.outbuf.length < OUTBUF_CAPACITY

/-- A packet returned by the receive loop is non-empty and no larger
than the 64-byte input buffer. -/
lemma sfgetcAux_packet (pending : List (List Nat)) (n : Nat) (pkt : List Nat)
    (rest : List (List Nat)) (h : (sfgetcAux pending n).1 = some (pkt, rest)) :
    pkt ≠ [] ∧ pkt.length ≤ USB_CDCACM_PACKET_SIZE := by
  induction pending generalizing n with
  | nil => simp [sfgetcAux] at h
  | cons p ps ih =>
    simp only [sfgetcAux] at h
    by_cases hp : p.take USB_CDCACM_PACKET_SIZE = []
    · rw [if_pos hp] at h
      exact ih _ h
    · rw [if_neg hp] at h
      simp only [Option.some.injEq, Prod.mk.injEq] at h
      obtain ⟨h1, _⟩ := h
      refine ⟨h1 ▸ hp, h1 ▸ ?_⟩
      exact List.length_take_le _ _

/-- The state after a successful `sfgetc`: either a byte was consumed
from the current buffer (cursor advanced), or the receive loop refilled
the buffer with a non-empty packet of at most 64 bytes (cursor 1). -/
lemma sfgetcStep_state (s : CdcState) (pending : List (List Nat)) (b : Nat)
    (s2 : CdcState) (rest : List (List Nat))
    (h : (sfgetcStep s pending).1 = some (b, s2, rest)) :
    (s.idx ≠ s.inbuf.length ∧ s2 = { s with idx := s.idx + 1 }) ∨
    (∃ pkt, pkt ≠ [] ∧ pkt.length ≤ USB_CDCACM_PACKET_SIZE ∧
      s2 = { s with inbuf := pkt, idx := 1 }) := by
  by_cases hidx : s.idx = s.inbuf.length
  · right
    simp only [sfgetcStep, if_pos hidx] at h
    cases haux : sfgetcAux pending 0 with
    | mk fst n =>
      rw [haux] at h
      cases fst with
      | none => simp at h
      | some pr =>
        obtain ⟨pkt, rest2⟩ := pr
        simp only [Option.some.injEq, Prod.mk.injEq] at h
        obtain ⟨aux1, aux2⟩ := sfgetcAux_packet pending 0 pkt rest2 (by rw [haux])
        exact ⟨pkt, aux1, aux2, h.2.1.symm⟩
  · left
    simp only [sfgetcStep, if_neg hidx] at h
    simp only [Option.some.injEq, Prod.mk.injEq] at h
    exact ⟨hidx, h.2.1.symm⟩

lemma stepOp_preserves (s : CdcState) (op : StreamOp) (h : StreamInvS s) :
    StreamInvS (stepOp s op) := by
  obtain ⟨h1, h2, h3⟩ := h
  cases op with
  | get pending =>
    simp only [stepOp]
    cases hstep : (sfgetcStep s pending).1 with
    | none =>
      refine ⟨by simp, by simp [USB_CDCACM_PACKET_SIZE], h3⟩
    | some triple =>
      obtain ⟨b, s2, rest⟩ := triple
      rcases sfgetcStep_state s pending b s2 rest hstep with ⟨hne, hs2⟩ | ⟨pkt, hpkt, hlen, hs2⟩
      · subst hs2
        exact ⟨by simp; omega, h2, h3⟩
      · subst hs2
        have : 1 ≤ pkt.length := by
          cases pkt with
          | nil => exact absurd rfl hpkt
          | cons x xs => simp
        exact ⟨this, hlen, h3⟩
  | put c =>
    simp only [stepOp, sfputcStep]
    by_cases hc : (s.outbuf ++ [byteOfInt c]).length = OUTBUF_CAPACITY
    · rw [if_pos hc]
      refine ⟨h1, h2, by simp [OUTBUF_CAPACITY_eq]⟩
    · rw [if_neg hc]
      refine ⟨h1, h2, ?_⟩
      simp only [List.length_append, List.length_singleton] at hc ⊢
      rw [OUTBUF_CAPACITY_eq] at h3 hc ⊢
      omega
  | sync =>
    exact ⟨h1, h2, by simp [stepOp, sfsyncStep, OUTBUF_CAPACITY_eq]⟩

lemma runOps_invS (ops : List StreamOp) :
    ∀ s, StreamInvS s → StreamInvS (ops.foldl stepOp s) := by
  induction ops with
  | nil => intro s hs; exact hs
  | cons op ops ih =>
    intro s hs
    exact ih _ (stepOp_preserves s op hs)

/-- C9: after every sequence of read, write and flush operations from
the initial state, the stream-buffer invariant holds: the input read
cursor is at most the valid length, the valid length is at most the
64-byte input capacity, and the output write cursor is at most the
63-byte output capacity. -/
theorem stream_buffer_invariant (ops : List StreamOp) : StreamInv (runOps ops) := by
  have hinit : StreamInvS initState := by
    refine ⟨Nat.le_refl _, ?_, ?_⟩ <;> simp [initState, USB_CDCACM_PACKET_SIZE, OUTBUF_CAPACITY_eq]
  obtain ⟨h1, h2, h3⟩ := runOps_invS ops initState hinit
  exact ⟨h1, h2, Nat.le_of_lt h3⟩

/- ### Draining successive sfgetc calls (C7, C6) -/

/-- `n` successive `sfgetc` calls: the bytes returned in order, the
final state and the undelivered packets; `none` as soon as one call
blocks on the finite packet script. -/
def drainM : Nat → CdcState → List (List Nat) → Option (List Nat × CdcState × List (List Nat))
  | 0, s, pending => some ([], s, pending)
  | n + 1, s, pending =>
    match (sfgetcStep s pending).1 with
    | none => none
    | some (b, s2, pending2) =>
      match drainM n s2 pending2 with
      | none => none
      | some (bs, s3, pending3) => some (b :: bs, s3, pending3)

/-- C7: with the input buffer exhausted, `sfgetc` polls and re-attempts
the packet receive until a non-empty packet arrives (empty results are
skipped), then returns the buffered bytes one at a time in arrival
order.  Concretely: after the host packet `[0x61, 0x62, 0x63]` arrives
on bulk-OUT, three successive `sfgetc` calls return 0x61, 0x62, 0x63 in
that order; a fourth call with no further data blocks (`none`), and
returns exactly when more data arrives. -/
theorem sfgetc_scenario_bytes_in_order :
    drainM 3 initState [[0x61, 0x62, 0x63]] =
      some ([0x61, 0x62, 0x63],
        (⟨false, [0x61, 0x62, 0x63], 3, []⟩ : CdcState), []) ∧
    (sfgetcStep (⟨false, [0x61, 0x62, 0x63], 3, []⟩ : CdcState) []).1 = none ∧
    (sfgetcStep (⟨false, [0x61, 0x62, 0x63], 3, []⟩ : CdcState) [[0x64]]).1 =
      some (0x64, (⟨false, [0x64], 1, []⟩ : CdcState), []) ∧
    (drainM 3 initState [[], [], [0x61, 0x62, 0x63]]).map (fun r => r.1) =
      some [0x61, 0x62, 0x63] := by
  refine ⟨by decide, by decide, by decide, by decide⟩

/- ### Stream order: loopback round trip (C6) -/

/-- The byte stream still to be consumed on the receive side: the
unread part of the input buffer followed by the undelivered packets. -/
def streamOf (s : CdcState) (pending : List (List Nat)) : List Nat :=
  s.inbuf.drop s.idx ++ pending.flatten

/-- Every pending packet fits the 64-byte endpoint/input buffer. -/
def Bounded (pending : List (List Nat)) : Prop :=
  ∀ p ∈ pending, p.length ≤ USB_CDCACM_PACKET_SIZE

lemma sfgetcAux_stream (pending : List (List Nat)) (n : Nat) (hb : Bounded pending) :
    ((sfgetcAux pending n).1 = none → pending.flatten = []) ∧
    (∀ pkt rest, (sfgetcAux pending n).1 = some (pkt, rest) →
      pkt ++ rest.flatten = pending.flatten ∧ Bounded rest) := by
  induction pending generalizing n with
  | nil =>
    refine ⟨fun _ => rfl, fun pkt rest hsome => ?_⟩
    simp [sfgetcAux] at hsome
  | cons p ps ih =>
    have hple : p.length ≤ USB_CDCACM_PACKET_SIZE := hb p (List.mem_cons_self p ps)
    have htake : p.take USB_CDCACM_PACKET_SIZE = p := List.take_of_length_le hple
    have hbps : Bounded ps := fun q hq => hb q (List.mem_cons_of_mem p hq)
    by_cases hp : p.take USB_CDCACM_PACKET_SIZE = []
    · have hpe : p = [] := htake ▸ hp
      obtain ⟨ihn, ihs⟩ := ih (n + 1) hbps
      constructor
      · intro hnone
        rw [sfgetcAux] at hnone
        rw [if_pos hp] at hnone
        simp [hpe, ihn hnone]
      · intro pkt rest hsome
        rw [sfgetcAux] at hsome
        rw [if_pos hp] at hsome
        obtain ⟨hfl, hbr⟩ := ihs pkt rest hsome
        exact ⟨by simp [hpe, hfl], hbr⟩
    · constructor
      · intro hnone
        rw [sfgetcAux] at hnone
        rw [if_neg hp] at hnone
        simp at hnone
      · intro pkt rest hsome
        rw [sfgetcAux] at hsome
        rw [if_neg hp] at hsome
        simp only [Option.some.injEq, Prod.mk.injEq] at hsome
        obtain ⟨h1, h2⟩ := hsome
        subst h2
        refine ⟨?_, hbps⟩
        rw [← h1, htake]
        simp

lemma sfgetcStep_stream (s : CdcState) (pending : List (List Nat))
    (hidx : s.idx ≤ s.inbuf.length) (hb : Bounded pending) :
    ((sfgetcStep s pending).1 = none → streamOf s pending = []) ∧
    (∀ b s2 pending2, (sfgetcStep s pending).1 = some (b, s2, pending2) →
      streamOf s pending = b :: streamOf s2 pending2 ∧
      s2.idx ≤ s2.inbuf.length ∧ Bounded pending2 ∧
      s2.outbuf = s.outbuf ∧ s2.configured = s.configured) := by
  by_cases hed : s.idx = s.inbuf.length
  · have hdrop : s.inbuf.drop s.idx = [] := by
      rw [hed]; exact List.drop_length s.inbuf
    obtain ⟨auxn, auxs⟩ := sfgetcAux_stream pending 0 hb
    constructor
    · intro hnone
      simp only [sfgetcStep, if_pos hed] at hnone
      cases haux : sfgetcAux pending 0 with
      | mk fst m =>
        rw [haux] at hnone
        cases fst with
        | none =>
          have := auxn (by rw [haux])
          simp [streamOf, hdrop, this]
        | some pr => obtain ⟨pkt, rest⟩ := pr; simp at hnone
    · intro b s2 pending2 hsome
      simp only [sfgetcStep, if_pos hed] at hsome
      cases haux : sfgetcAux pending 0 with
      | mk fst m =>
        rw [haux] at hsome
        cases fst with
        | none => simp at hsome
        | some pr =>
          obtain ⟨pkt, rest⟩ := pr
          simp only [Option.some.injEq, Prod.mk.injEq] at hsome
          obtain ⟨hb1, hs2, hp2⟩ := hsome
          obtain ⟨hne, _⟩ := sfgetcAux_packet pending 0 pkt rest (by rw [haux])
          obtain ⟨hfl, hbr⟩ := auxs pkt rest (by rw [haux])
          subst hs2
          subst hp2
          cases pkt with
          | nil => exact absurd rfl hne
          | cons x xs =>
            refine ⟨?_, by simp, hbr, rfl, rfl⟩
            simp only [streamOf, hdrop, List.nil_append] at hfl ⊢
            rw [← hfl, ← hb1]
            simp [List.headI]
  · have hlt : s.idx < s.inbuf.length := Nat.lt_of_le_of_ne hidx hed
    constructor
    · intro hnone
      simp [sfgetcStep, if_neg hed] at hnone
    · intro b s2 pending2 hsome
      simp only [sfgetcStep, if_neg hed] at hsome
      simp only [Option.some.injEq, Prod.mk.injEq] at hsome
      obtain ⟨hb1, hs2, hp2⟩ := hsome
      subst hs2
      subst hp2
      refine ⟨?_, by simp; omega, hb, rfl, rfl⟩
      simp only [streamOf]
      rw [List.drop_eq_getElem_cons hlt]
      simp only [List.cons_append]
      congr 1
      rw [← hb1]
      exact (List.getD_eq_getElem s.inbuf 0 hlt).symm

lemma drainM_stream (n : Nat) :
    ∀ (s : CdcState) (pending : List (List Nat)),
      s.idx ≤ s.inbuf.length → Bounded pending →
      n ≤ (streamOf s pending).length →
      ∃ s3 pending3,
        drainM n s pending = some ((streamOf s pending).take n, s3, pending3) := by
  induction n with
  | zero =>
    intro s pending _ _ _
    exact ⟨s, pending, by simp [drainM]⟩
  | succ n ih =>
    intro s pending hidx hb hlen
    obtain ⟨stepn, steps⟩ := sfgetcStep_stream s pending hidx hb
    cases hstep : (sfgetcStep s pending).1 with
    | none =>
      have : streamOf s pending = [] := stepn hstep
      rw [this] at hlen
      simp at hlen
    | some triple =>
      obtain ⟨b, s2, pending2⟩ := triple
      obtain ⟨hstream, hidx2, hb2, _, _⟩ := steps b s2 pending2 hstep
      have hlen2 : n ≤ (streamOf s2 pending2).length := by
        rw [hstream] at hlen
        simpa using hlen
      obtain ⟨s3, pending3, hdrain⟩ := ih s2 pending2 hidx2 hb2 hlen2
      refine ⟨s3, pending3, ?_⟩
      rw [drainM]
      rw [hstep]
      simp only [hdrain, hstream]
      simp [List.take_succ_cons]

/-- Write the byte sequence with `sfputc` calls and finish with `sfsync`:
the packets handed to the bulk-IN endpoint, in transmission order (the
automatic flushes followed by the final explicit flush). -/
def sendAll (cs : List Int) (s : CdcState) : CdcState × List (List Nat) :=
  ((sfsyncStep (sfputcRun cs s).1).1,
    (sfputcRun cs s).2 ++ [(sfsyncStep (sfputcRun cs s).1).2])

lemma sendAll_flatten (cs : List Int) :
    ((sendAll cs initState).2).flatten = cs.map byteOfInt ∧
    Bounded (sendAll cs initState).2 := by
  have hinit : (initState).outbuf.length < OUTBUF_CAPACITY := by
    simp [initState, OUTBUF_CAPACITY_eq]
  obtain ⟨i1, _, i3, i4, _, _, _⟩ := sfputcRun_spec cs initState hinit
  constructor
  · simp only [sendAll, sfsyncStep, List.flatten_append, List.flatten_cons,
      List.flatten_nil, List.append_nil]
    simpa [initState] using i4
  · intro p hp
    simp only [sendAll, sfsyncStep] at hp
    rcases List.mem_append.mp hp with hp | hp
    · rw [i3 p hp, USB_CDCACM_PACKET_SIZE]; omega
    · simp at hp
      subst hp
      rw [USB_CDCACM_PACKET_SIZE]
      have : (sfputcRun cs initState).1.outbuf.length = (initState.outbuf.length + cs.length) % 63 := i1
      simp only [initState] at this
      omega

/-- C6: loopback round trip.  For any sequence of bytes written with
`sfputc` and flushed with `sfsync` on the sending side, draining as many
`sfgetc` calls on the receiving side — fed exactly the packet sequence
the sender handed to the endpoint, however the transport chunked it —
returns the written bytes in the same order. -/
theorem stream_order_roundtrip (bs : List Nat) (h : ∀ b ∈ bs, b < 256) :
    (drainM bs.length initState (sendAll (bs.map Int.ofNat) initState).2).map
      (fun r => r.1) = some bs := by
  obtain ⟨hfl, hb⟩ := sendAll_flatten (bs.map Int.ofNat)
  have hmap : (bs.map Int.ofNat).map byteOfInt = bs := by
    rw [List.map_map]
    have : ∀ b ∈ bs, (byteOfInt ∘ Int.ofNat) b = b := by
      intro b hbmem
      have hblt : (b : Int) < 256 := by exact_mod_cast h b hbmem
      simp only [Function.comp_apply, byteOfInt, Int.ofNat_eq_coe]
      rw [Int.emod_eq_of_lt (by positivity) hblt]
      exact Int.toNat_natCast b
    rw [List.map_congr_left this]
    simp
  have hstream : streamOf initState (sendAll (bs.map Int.ofNat) initState).2 = bs := by
    rw [streamOf]
    rw [show initState.inbuf.drop initState.idx = [] from rfl]
    rw [List.nil_append, hfl, hmap]
  have hidx : (initState).idx ≤ (initState).inbuf.length := Nat.le_refl 0
  have hlen : bs.length ≤ (streamOf initState (sendAll (bs.map Int.ofNat) initState).2).length :=
    le_of_eq (by rw [hstream])
  obtain ⟨s3, pending3, hdrain⟩ :=
    drainM_stream bs.length initState (sendAll (bs.map Int.ofNat) initState).2 hidx hb hlen
  rw [hdrain, hstream, List.take_length]
  rfl

/-- Witness for `stream_order_roundtrip`: the 70 bytes 0,…,69 — spanning
a flushed 63-byte packet plus a final short packet — round-trip intact. -/
theorem stream_order_roundtrip_witness :
    (drainM (List.range 70).length initState
      (sendAll ((List.range 70).map Int.ofNat) initState).2).map
      (fun r => r.1) = some (List.range 70) :=
  stream_order_roundtrip (List.range 70) (by decide)
